import Mathlib

/-!
# Verification of the Impala shell protocol client engine

Shallow embedding of `shell/impala_shell/impala_client.py`: the generic RPC
dispatch-and-retry loop (`ImpalaHS2Client._do_hs2_rpc`), the query-handle
operations (`close_query`, `cancel_query`, `close_dml` in the HS2, strict-HS2
and Beeswax clients), the fetch loops, the columnar result transposition
(`ImpalaHS2Client._transpose`), identifier rendering
(`ImpalaHS2Client._convert_id_to_str`) and the polling sleep schedule
(`ImpalaClient._get_sleep_interval` / `wait_to_finish`).
-/

set_option autoImplicit false

namespace Impala

/-! ## RPC dispatch and retry (`ImpalaHS2Client._do_hs2_rpc`) -/

/-- The outcome of one invocation of the wrapped thrift call, as discriminated
by the `except` clauses of `_do_hs2_rpc` (impala_client.py:1065-1113):
a normal return, a `TTransportException` (possibly wrapping a `socket.error`
in its `inner` field), a `TApplicationException` (whose `type` may be
`UNKNOWN_METHOD`), an `HttpError` (possibly carrying a parsed integer
`Retry-After` header), or any other exception. -/
inductive RpcAttempt (α : Type) where
  | success (v : α)
  | transportExc (wrapsSocketError : Bool)
  | applicationExc (unknownMethod : Bool)
  | httpError (retryAfterHeader : Option Nat)
  | otherExc
deriving DecidableEq

/-- The exceptions `_do_hs2_rpc` and the status checkers can raise, mirroring
the error taxonomy of the shell (`DisconnectedException`,
`QueryCancelledByShellException`, `MissingThriftMethodException`,
`RPCException` with kind `RPC_EXCEPTION_TAPPLICATION` or
`RPC_EXCEPTION_SERVER` or no kind, `QueryStateException`, a re-raised
`HttpError`, a re-raised unwrapped `socket.error`, or a re-raised generic
exception). -/
inductive RpcError where
  | disconnected
  | queryCancelledByShell
  | missingThriftMethod
  | rpcApplicationError
  | rpcServerError
  | rpcGenericError
  | queryStateStale
  | httpErr (retryAfter : Option Nat)
  | socketErr
  | otherErr
deriving DecidableEq

/-- How a `_do_hs2_rpc` call ends: a returned value, a raised exception, or
falling off the end of the `while` loop (Python would return `None`; this
only happens when the loop bound is `0`). -/
inductive DispatchOutcome (α : Type) where
  | ok (v : α)
  | err (e : RpcError)
  | noReturn
deriving DecidableEq

/-- Observable behaviour of one `_do_hs2_rpc` call: its outcome, the number
of invocations of the wrapped rpc, and the `time.sleep` durations performed
between attempts, in order (`sleeps[i]` separates attempt `i+1` from attempt
`i+2`). -/
structure DispatchResult (α : Type) where
  outcome : DispatchOutcome α
  attempts : Nat
  sleeps : List Nat
deriving DecidableEq

/-- The per-client state feeding the retry loop: `self.max_tries`,
`self.min_sleep_interval` (set in `ImpalaHS2Client.__init__`,
impala_client.py:604-611) and the `self.is_query_cancelled` flag. -/
structure DispatchConfig where
  maxTries : Nat
  minSleepInterval : Nat
  isQueryCancelled : Bool
deriving DecidableEq

/-- `ImpalaHS2Client.__init__` (impala_client.py:604-609): retries are enabled
only for the hs2-http protocol; `self.max_tries = self.connect_max_tries` when
`self.use_http_base_transport` else `1`. -/
def clientMaxTries (useHttpBaseTransport : Bool) (connectMaxTries : Nat) : Nat :=
  if useHttpBaseTransport then connectMaxTries else 1

/-- The `DispatchConfig` produced by `ImpalaHS2Client.__init__`:
`max_tries` as above and `min_sleep_interval = 1`. -/
def hs2ClientConfig (useHttpBaseTransport : Bool) (connectMaxTries : Nat)
    (isQueryCancelled : Bool) : DispatchConfig :=
  ⟨clientMaxTries useHttpBaseTransport connectMaxTries, 1, isQueryCancelled⟩

/-- `ImpalaHS2Client._get_sleep_interval_for_retries` (impala_client.py:627-630):
`self.min_sleep_interval * (num_tries - 1)`. -/
def getSleepIntervalForRetries (cfg : DispatchConfig) (numTries : Nat) : Nat :=
  cfg.minSleepInterval * (numTries - 1)

/-- The `while num_tries <= max_tries` loop of `_do_hs2_rpc`
(impala_client.py:1049-1118), with the loop iterations driven structurally by
`fuel` (the caller supplies `fuel = maxTriesLocal + 1 - numTries`, so `fuel = 0`
exactly when the loop guard `num_tries <= max_tries` fails). `script n` is the
outcome of the `n`-th invocation of the wrapped rpc (1-indexed). -/
def dispatchFrom {α : Type} (cfg : DispatchConfig) (script : Nat → RpcAttempt α)
    (suppressErrorOnCancel retryOnError : Bool) (maxTriesLocal : Nat) :
    Nat → Nat → DispatchResult α
  | _, 0 => ⟨.noReturn, 0, []⟩
  | numTries, fuel + 1 =>
    let raiseError := numTries == maxTriesLocal
    match script numTries with
    | .success v => ⟨.ok v, 1, []⟩
    | .transportExc wrapsSocketError =>
      -- socket.error is unwrapped first; on the last try a (still-wrapped)
      -- TTransportException becomes DisconnectedException, an unwrapped
      -- socket.error is re-raised as itself.
      if raiseError then
        ⟨.err (if wrapsSocketError then .socketErr else .disconnected), 1, []⟩
      else
        let sleep := getSleepIntervalForRetries cfg numTries
        let rest := dispatchFrom cfg script suppressErrorOnCancel retryOnError
          maxTriesLocal (numTries + 1) fuel
        ⟨rest.outcome, rest.attempts + 1, sleep :: rest.sleeps⟩
    | .applicationExc unknownMethod =>
      -- TApplicationException is never retried: it raises regardless of
      -- raise_error.
      if suppressErrorOnCancel && cfg.isQueryCancelled then
        ⟨.err .queryCancelledByShell, 1, []⟩
      else if unknownMethod then ⟨.err .missingThriftMethod, 1, []⟩
      else ⟨.err .rpcApplicationError, 1, []⟩
    | .httpError retryAfterHeader =>
      let willRetry := retryOnError && decide (1 < cfg.maxTries)
        && decide (numTries < maxTriesLocal)
      let retrySecs := if willRetry then retryAfterHeader else none
      if raiseError then ⟨.err (.httpErr retryAfterHeader), 1, []⟩
      else
        -- `if retry_secs:` is falsy both for None and for 0.
        let sleep := match retrySecs with
          | some s => if s == 0 then getSleepIntervalForRetries cfg numTries else s
          | none => getSleepIntervalForRetries cfg numTries
        let rest := dispatchFrom cfg script suppressErrorOnCancel retryOnError
          maxTriesLocal (numTries + 1) fuel
        ⟨rest.outcome, rest.attempts + 1, sleep :: rest.sleeps⟩
    | .otherExc =>
      if raiseError then ⟨.err .otherErr, 1, []⟩
      else
        let sleep := getSleepIntervalForRetries cfg numTries
        let rest := dispatchFrom cfg script suppressErrorOnCancel retryOnError
          maxTriesLocal (numTries + 1) fuel
        ⟨rest.outcome, rest.attempts + 1, sleep :: rest.sleeps⟩

/-- `ImpalaHS2Client._do_hs2_rpc` (impala_client.py:1032-1118):
`max_tries = self.max_tries if retry_on_error else 1`, then the loop starting
at `num_tries = 1`. -/
def doHs2Rpc {α : Type} (cfg : DispatchConfig) (script : Nat → RpcAttempt α)
    (suppressErrorOnCancel retryOnError : Bool) : DispatchResult α :=
  let maxTriesLocal := if retryOnError then cfg.maxTries else 1
  dispatchFrom cfg script suppressErrorOnCancel retryOnError maxTriesLocal 1
    maxTriesLocal

/-- Whether an attempt outcome carries a server-provided retry-after
duration (an `HttpError` with a parseable `Retry-After` header). -/
def noRetryAfter {α : Type} : RpcAttempt α → Bool
  | .httpError (some _) => false
  | _ => true

/-- Whether a failed attempt is one the loop retries when tries remain
(transport errors, http errors and generic exceptions; successes return and
`TApplicationException` always raises). -/
def retriableFailure {α : Type} : RpcAttempt α → Bool
  | .transportExc _ => true
  | .httpError _ => true
  | .otherExc => true
  | _ => false

/-! ## Status checking -/

/-- The `TCLIService.TStatusCode` values the client distinguishes. -/
inductive TStatusCode where
  | successStatus
  | successWithInfoStatus
  | stillExecutingStatus
  | errorStatus
  | invalidHandleStatus
deriving DecidableEq

/-- `ImpalaHS2Client._is_hs2_nonerror_status` (impala_client.py:1141-1145). -/
def isHs2NonerrorStatus : TStatusCode → Bool
  | .successStatus => true
  | .successWithInfoStatus => true
  | .stillExecutingStatus => true
  | _ => false

/-- `ImpalaHS2Client._check_hs2_rpc_status` (impala_client.py:1120-1139):
error statuses raise (`QueryCancelledByShellException` whenever
`self.is_query_cancelled`); all other codes are treated as success. -/
def checkHs2RpcStatus (isQueryCancelled : Bool) (status : TStatusCode) :
    Except RpcError Unit :=
  match status with
  | .errorStatus =>
    if isQueryCancelled then .error .queryCancelledByShell
    else .error .rpcServerError
  | .invalidHandleStatus =>
    if isQueryCancelled then .error .queryCancelledByShell
    else .error .queryStateStale
  | _ => .ok ()

/-- The Beeswax-side rpc status enum (`RpcStatus`, impala_client.py:1208-1211). -/
inductive RpcStatus where
  | ok
  | error
deriving DecidableEq, BEq

/-! ## Query-handle operations (close / cancel / close-DML)

Each operation is embedded as a function of the handle and of the behaviour
of its remote call: `rpcResp` is what the underlying dispatch would produce
(`Except.error e` when it raises, `Except.ok _` when it returns a response).
The result records the updated handle, the value returned or exception
raised, and how many remote rpcs the operation issued. -/

deriving instance DecidableEq for Except

/-- A query handle: the only state the close/cancel operations touch is the
`is_closed` flag. -/
structure QueryHandle where
  isClosed : Bool
deriving DecidableEq

/-- Result of a close/cancel operation. -/
structure CloseOutcome where
  handle : QueryHandle
  result : Except RpcError Bool
  rpcCalls : Nat
deriving DecidableEq

/-- `ImpalaHS2Client.close_query` (impala_client.py:909-924): short-circuit on
`is_closed`; otherwise one `CloseImpalaOperation` rpc; on a returned response
set `is_closed = True` and return `_is_hs2_nonerror_status(statusCode)`; a
raised exception propagates before `is_closed` is assigned. -/
def closeQuery (h : QueryHandle) (rpcResp : Except RpcError TStatusCode) :
    CloseOutcome :=
  if h.isClosed then ⟨h, .ok true, 0⟩
  else
    match rpcResp with
    | .error e => ⟨h, .error e, 1⟩
    | .ok status => ⟨{ h with isClosed := true }, .ok (isHs2NonerrorStatus status), 1⟩

/-- `ImpalaHS2Client.cancel_query` (impala_client.py:926-941): short-circuit on
`is_closed`; otherwise one `CancelOperation` rpc; returns
`_is_hs2_nonerror_status(statusCode)` and never assigns `is_closed`. -/
def cancelQuery (h : QueryHandle) (rpcResp : Except RpcError TStatusCode) :
    CloseOutcome :=
  if h.isClosed then ⟨h, .ok true, 0⟩
  else
    match rpcResp with
    | .error e => ⟨h, .error e, 1⟩
    | .ok status => ⟨h, .ok (isHs2NonerrorStatus status), 1⟩

/-- `StrictHS2Client.close_query` (impala_client.py:1224-1239): same logic as
`ImpalaHS2Client.close_query` (one `CloseOperation` rpc, dispatched with
`retry_on_error=False`). -/
def closeQueryStrict (h : QueryHandle) (rpcResp : Except RpcError TStatusCode) :
    CloseOutcome :=
  if h.isClosed then ⟨h, .ok true, 0⟩
  else
    match rpcResp with
    | .error e => ⟨h, .error e, 1⟩
    | .ok status => ⟨{ h with isClosed := true }, .ok (isHs2NonerrorStatus status), 1⟩

/-- DML statistics as returned to the caller:
`(rows_modified, rows_deleted, row_errors)`, each possibly `None`. -/
abbrev DmlStats := Option Nat × Option Nat × Option Nat

/-- Result of a close-DML operation. -/
structure DmlOutcome where
  handle : QueryHandle
  result : Except RpcError DmlStats
  rpcCalls : Nat
deriving DecidableEq

/-- `StrictHS2Client.close_dml` (impala_client.py:1220-1222):
`self.close_query(last_query_handle); return (None, None, None)` — the close
result is discarded, and a raised exception propagates. -/
def closeDmlStrict (h : QueryHandle) (rpcResp : Except RpcError TStatusCode) :
    DmlOutcome :=
  let c := closeQueryStrict h rpcResp
  match c.result with
  | .error e => ⟨c.handle, .error e, c.rpcCalls⟩
  | .ok _ => ⟨c.handle, .ok (none, none, none), c.rpcCalls⟩

/-- The fields of a Beeswax `TInsertResult` used by `_process_dml_result`:
the per-partition counts of `rows_modified` and `rows_deleted` (an empty map
is falsy in Python) and `num_row_errors`. -/
structure DmlResult where
  rowsModified : List Nat
  rowsDeleted : List Nat
  numRowErrors : Option Nat
deriving DecidableEq

/-- `ImpalaClient._process_dml_result` (impala_client.py:577-582):
`num_rows = sum(rows_modified.values())`; `num_deleted_rows` is `None` unless
`rows_deleted` is non-empty; `num_row_errors` is passed through. -/
def processDmlResult (d : DmlResult) : DmlStats :=
  (some d.rowsModified.sum,
   if d.rowsDeleted.isEmpty then none else some d.rowsDeleted.sum,
   d.numRowErrors)

/-- `ImpalaBeeswaxClient.close_dml` (impala_client.py:1373-1379): one
`CloseInsert` rpc; raise `RPCException` when the rpc status is not OK;
otherwise set `is_closed = True` and return the processed DML statistics. -/
def closeDmlBeeswax (h : QueryHandle)
    (rpcResp : Except RpcError (DmlResult × RpcStatus)) : DmlOutcome :=
  match rpcResp with
  | .error e => ⟨h, .error e, 1⟩
  | .ok (dmlResult, rpcStatus) =>
    if rpcStatus == RpcStatus.ok then
      ⟨{ h with isClosed := true }, .ok (processDmlResult dmlResult), 1⟩
    else ⟨h, .error .rpcGenericError, 1⟩

/-- `ImpalaBeeswaxClient.close_query` (impala_client.py:1381-1388). -/
def closeQueryBeeswax (h : QueryHandle) (rpcResp : Except RpcError RpcStatus) :
    CloseOutcome :=
  if h.isClosed then ⟨h, .ok true, 0⟩
  else
    match rpcResp with
    | .error e => ⟨h, .error e, 1⟩
    | .ok rpcStatus => ⟨{ h with isClosed := true }, .ok (rpcStatus == RpcStatus.ok), 1⟩

/-- `ImpalaBeeswaxClient.cancel_query` (impala_client.py:1390-1397):
short-circuit on `is_closed`; otherwise one `Cancel` rpc; returns
`rpc_status == RpcStatus.OK` and never assigns `is_closed`. -/
def cancelQueryBeeswax (h : QueryHandle) (rpcResp : Except RpcError RpcStatus) :
    CloseOutcome :=
  if h.isClosed then ⟨h, .ok true, 0⟩
  else
    match rpcResp with
    | .error e => ⟨h, .error e, 1⟩
    | .ok rpcStatus => ⟨h, .ok (rpcStatus == RpcStatus.ok), 1⟩

/-! ## Fetch loops

A fetch generator is embedded as a function of the stream of server replies
to its successive fetch-next rpcs: `FetchStep.resp rows more` is a response
that passed the status check, carrying the (already transposed) batch `rows`
and the wire `hasMoreRows`/`has_more` flag; `FetchStep.fail e` is an rpc or
status-check failure, which aborts the generator. The value computed is
`(batches yielded, number of fetch rpcs issued, aborting error if any)`. -/

/-- One server reply to a fetch-next rpc. -/
inductive FetchStep (ρ : Type) where
  | resp (rows : List ρ) (hasMoreRows : Bool)
  | fail (e : RpcError)
deriving DecidableEq

/-- `ImpalaHS2Client.fetch` (impala_client.py:827-859): in a loop, issue one
`FetchResults` rpc, yield the transposed batch, and return when
`resp.hasMoreRows` (via `_hasMoreRows`, impala_client.py:858-859) is falsy. -/
def hs2Fetch {ρ : Type} : List (FetchStep ρ) → List (List ρ) × Nat × Option RpcError
  | [] => ([], 0, none)
  | .fail e :: _ => ([], 1, some e)
  | .resp rows more :: rest =>
    if more then
      let p := hs2Fetch rest
      (rows :: p.1, p.2.1 + 1, p.2.2)
    else ([rows], 1, none)

/-- The same loop run by `StrictHS2Client`, whose `_hasMoreRows` override
(impala_client.py:1256-1258) returns `len(tcol.values)` of the first column —
truthy exactly when the batch it just yielded is non-empty. The wire
`hasMoreRows` flag of the response is ignored. -/
def strictFetch {ρ : Type} : List (FetchStep ρ) → List (List ρ) × Nat × Option RpcError
  | [] => ([], 0, none)
  | .fail e :: _ => ([], 1, some e)
  | .resp rows _hasMoreRows :: rest =>
    if rows.length != 0 then
      let p := strictFetch rest
      (rows :: p.1, p.2.1 + 1, p.2.2)
    else ([rows], 1, none)

/-- `ImpalaBeeswaxClient.fetch` (impala_client.py:1355-1371): in a loop, issue
one `fetch` rpc, raise on a non-OK status, yield the split rows, and return
when `result.has_more` is false. -/
def beeswaxFetch {ρ : Type} : List (FetchStep ρ) → List (List ρ) × Nat × Option RpcError
  | [] => ([], 0, none)
  | .fail e :: _ => ([], 1, some e)
  | .resp rows hasMore :: rest =>
    if hasMore then
      let p := beeswaxFetch rest
      (rows :: p.1, p.2.1 + 1, p.2.2)
    else ([rows], 1, none)

/-! ## Columnar result decoding (`ImpalaHS2Client._transpose`) -/

/-- A display cell produced by `_transpose`: the literal string `'NULL'`, a
raw (unconverted) value written when the stringifier is `None`, or the string
produced by the stringifier. -/
inductive Cell (α : Type) where
  | nullLit
  | raw (v : α)
  | str (s : String)
deriving DecidableEq

instance {α : Type} : Inhabited (Cell α) := ⟨Cell.nullLit⟩

/-- A typed HS2 column as extracted by a `HS2_VALUE_GETTERS` getter: its
value array and its packed null bitmap, as a byte list. -/
structure TColumn (α : Type) where
  values : List α
  nulls : List Nat
deriving DecidableEq

/-- Bit `i` of the null bitmap: `bitarray(endian='little').frombytes(nulls)`
stores bit `i` as bit `i % 8` (least-significant-first) of byte `i / 8`. -/
def isNullBit (nulls : List Nat) (i : Nat) : Bool :=
  (nulls.getD (i / 8) 0).testBit (i % 8)

/-- What `_transpose` writes for a non-null value: the raw value when the
stringifier is `None` (the fast path), else the stringified value. -/
def cellOf {α : Type} (stringifier : Option (α → String)) (v : α) : Cell α :=
  match stringifier with
  | none => Cell.raw v
  | some f => Cell.str (f v)

/-- The per-column body of `ImpalaHS2Client._transpose`
(impala_client.py:870-889): with `bitset_len = min(len(is_null), num_rows)`,
rows below `bitset_len` are `'NULL'` when their bitmap bit is set and the
(converted) value otherwise; rows in `[bitset_len, num_rows)` get the
(converted) value unconditionally. -/
def transposeColumn {α : Type} [Inhabited α] (stringifier : Option (α → String))
    (values : List α) (nulls : List Nat) (numRows : Nat) : List (Cell α) :=
  let bitsetLen := min (8 * nulls.length) numRows
  ((List.range bitsetLen).map fun currentRow =>
    if isNullBit nulls currentRow then Cell.nullLit
    else cellOf stringifier (values.getD currentRow default))
  ++ ((List.range' bitsetLen (numRows - bitsetLen)).map fun currentRow =>
    cellOf stringifier (values.getD currentRow default))

/-- `ImpalaHS2Client._transpose` (impala_client.py:861-890): `num_rows` is the
length of the first column's value array, and the columns are written into
row-major order (`rows[current_row][col_idx]`). -/
def transpose {α : Type} [Inhabited α] (stringifiers : List (Option (α → String)))
    (cols : List (TColumn α)) : List (List (Cell α)) :=
  let numRows := match cols with
    | [] => 0
    | c :: _ => c.values.length
  let colCells := List.zipWith
    (fun s c => transposeColumn s c.values c.nulls numRows) stringifiers cols
  (List.range numRows).map fun i => colCells.map fun cells => cells.getD i default

/-! ## Identifier rendering (`ImpalaHS2Client._convert_id_to_str`) -/

/-- One lowercase hex digit. -/
def hexDigit (n : Nat) : Char :=
  if n < 10 then Char.ofNat (48 + n) else Char.ofNat (87 + n)

/-- A byte as two lowercase hex digits (`bytes.hex()` per byte). -/
def byteToHex (b : Nat) : String :=
  String.mk [hexDigit (b / 16), hexDigit (b % 16)]

/-- `bytes.hex()`: each byte as two lowercase hex digits, concatenated. -/
def bytesToHex (bs : List Nat) : String :=
  String.join (bs.map byteToHex)

/-- `ImpalaHS2Client._convert_id_to_str` (impala_client.py:809-825):
`low_bytes_reversed = id_bytes[7::-1]`, `high_bytes_reversed =
id_bytes[16:7:-1]`, rendered `"{low_hex}:{high_hex}"`. For inputs of length
at most 16 (the guid is 16 bytes) those slices are `(take 8).reverse` and
`((take 16).drop 8).reverse`. -/
def convertIdToStr (idBytes : List Nat) : String :=
  let lowBytesReversed := (idBytes.take 8).reverse
  let highBytesReversed := ((idBytes.take 16).drop 8).reverse
  bytesToHex lowBytesReversed ++ ":" ++ bytesToHex highBytesReversed

/-- The identifier rendering as the specification words it: split the 16
bytes into the low half (indices 0..7) and high half (indices 8..15), reverse
each half independently, hex-encode each half, and join with a colon. -/
def specRenderId (idBytes : List Nat) : String :=
  bytesToHex (idBytes.take 8).reverse ++ ":" ++ bytesToHex (idBytes.drop 8).reverse

/-! ## Polling sleep schedule (`ImpalaClient.wait_to_finish`)

Wall-clock instants are embedded as rationals. -/

/-- `ImpalaClient._get_sleep_interval` (impala_client.py:557-565): a step
function of `elapsed = time.time() - start_time`. -/
def getSleepInterval (startTime now : ℚ) : ℚ :=
  let elapsed := now - startTime
  if elapsed < 10 then 1/10
  else if elapsed < 60 then 1/2
  else 1

/-- The sleep actually performed at the bottom of one `wait_to_finish`
iteration (impala_client.py:311-313): `sleep(sleep_time - rpc_time)` only when
`rpc_time < sleep_time`, where `sleep_time = _get_sleep_interval(loop_start)`
and `rpc_time` is the duration of the status rpc. -/
def waitPollSleep (loopStart now rpcTime : ℚ) : ℚ :=
  let sleepTime := getSleepInterval loopStart now
  if rpcTime < sleepTime then sleepTime - rpcTime else 0

/-! ## Helper lemmas about the dispatch loop -/

/-- One retry iteration's contribution to the observable result. -/
def retryStepResult {α : Type} (sleep : Nat) (rest : DispatchResult α) :
    DispatchResult α :=
  ⟨rest.outcome, rest.attempts + 1, sleep :: rest.sleeps⟩

theorem range_map_mul_shift (m t k : Nat) (ht : 1 ≤ t) :
    (List.range (k + 1)).map (fun i => m * (t - 1 + i))
      = m * (t - 1) :: (List.range k).map (fun i => m * (t + i)) := by
  rw [List.range_succ_eq_map, List.map_cons, List.map_map]
  congr 1
  apply List.map_congr_left
  intro i _
  show m * (t - 1 + (i + 1)) = m * (t + i)
  congr 1
  omega

theorem dispatchFrom_step_success {α : Type} (cfg : DispatchConfig)
    (script : Nat → RpcAttempt α) (sup ro : Bool) (M t f : Nat) (v : α)
    (h : script t = .success v) :
    dispatchFrom cfg script sup ro M t (f + 1) = ⟨.ok v, 1, []⟩ := by
  simp [dispatchFrom, h]

theorem dispatchFrom_step_transport_raise {α : Type} (cfg : DispatchConfig)
    (script : Nat → RpcAttempt α) (sup ro : Bool) (M f : Nat) (w : Bool)
    (h : script M = .transportExc w) :
    dispatchFrom cfg script sup ro M M (f + 1)
      = ⟨.err (if w then .socketErr else .disconnected), 1, []⟩ := by
  simp [dispatchFrom, h]

theorem dispatchFrom_step_transport_retry {α : Type} (cfg : DispatchConfig)
    (script : Nat → RpcAttempt α) (sup ro : Bool) (M t f : Nat) (w : Bool)
    (h : script t = .transportExc w) (htM : t ≠ M) :
    dispatchFrom cfg script sup ro M t (f + 1)
      = retryStepResult (getSleepIntervalForRetries cfg t)
          (dispatchFrom cfg script sup ro M (t + 1) f) := by
  have hbeq : (t == M) = false := by simp [htM]
  simp [dispatchFrom, h, hbeq, retryStepResult]

theorem dispatchFrom_step_application {α : Type} (cfg : DispatchConfig)
    (script : Nat → RpcAttempt α) (sup ro : Bool) (M t f : Nat) (u : Bool)
    (h : script t = .applicationExc u) :
    dispatchFrom cfg script sup ro M t (f + 1)
      = ⟨.err (if sup && cfg.isQueryCancelled then .queryCancelledByShell
          else if u then .missingThriftMethod else .rpcApplicationError), 1, []⟩ := by
  by_cases hc : (sup && cfg.isQueryCancelled) = true
  · simp [dispatchFrom, h, hc]
  · by_cases hu : u = true <;> simp [dispatchFrom, h, hc, hu]

theorem dispatchFrom_step_http_raise {α : Type} (cfg : DispatchConfig)
    (script : Nat → RpcAttempt α) (sup ro : Bool) (M f : Nat) (hdr : Option Nat)
    (h : script M = .httpError hdr) :
    dispatchFrom cfg script sup ro M M (f + 1)
      = ⟨.err (.httpErr hdr), 1, []⟩ := by
  simp [dispatchFrom, h]

theorem dispatchFrom_step_http_retry_none {α : Type} (cfg : DispatchConfig)
    (script : Nat → RpcAttempt α) (sup ro : Bool) (M t f : Nat)
    (h : script t = .httpError none) (htM : t ≠ M) :
    dispatchFrom cfg script sup ro M t (f + 1)
      = retryStepResult (getSleepIntervalForRetries cfg t)
          (dispatchFrom cfg script sup ro M (t + 1) f) := by
  have hbeq : (t == M) = false := by simp [htM]
  simp only [dispatchFrom, h, hbeq, Bool.false_eq_true, if_false, ite_self,
    retryStepResult]

theorem dispatchFrom_step_http_retry {α : Type} (cfg : DispatchConfig)
    (script : Nat → RpcAttempt α) (sup ro : Bool) (M t f : Nat) (hdr : Option Nat)
    (h : script t = .httpError hdr) (htM : t ≠ M) :
    ∃ sleep, dispatchFrom cfg script sup ro M t (f + 1)
      = retryStepResult sleep (dispatchFrom cfg script sup ro M (t + 1) f) := by
  have hbeq : (t == M) = false := by simp [htM]
  simp only [dispatchFrom, h, hbeq, Bool.false_eq_true, if_false, retryStepResult]
  exact ⟨_, rfl⟩

theorem dispatchFrom_step_other_raise {α : Type} (cfg : DispatchConfig)
    (script : Nat → RpcAttempt α) (sup ro : Bool) (M f : Nat)
    (h : script M = .otherExc) :
    dispatchFrom cfg script sup ro M M (f + 1) = ⟨.err .otherErr, 1, []⟩ := by
  simp [dispatchFrom, h]

theorem dispatchFrom_step_other_retry {α : Type} (cfg : DispatchConfig)
    (script : Nat → RpcAttempt α) (sup ro : Bool) (M t f : Nat)
    (h : script t = .otherExc) (htM : t ≠ M) :
    dispatchFrom cfg script sup ro M t (f + 1)
      = retryStepResult (getSleepIntervalForRetries cfg t)
          (dispatchFrom cfg script sup ro M (t + 1) f) := by
  have hbeq : (t == M) = false := by simp [htM]
  simp [dispatchFrom, h, hbeq, retryStepResult]

theorem dispatchFrom_persistent_transport {α : Type} (cfg : DispatchConfig)
    (script : Nat → RpcAttempt α) (sup ro : Bool) (M : Nat)
    (hscript : ∀ n, script n = .transportExc false) :
    ∀ fuel t, 1 ≤ t → t ≤ M → fuel = M + 1 - t →
      dispatchFrom cfg script sup ro M t fuel =
        ⟨.err .disconnected, M + 1 - t,
         (List.range (M - t)).map fun i => cfg.minSleepInterval * (t - 1 + i)⟩ := by
  intro fuel
  induction fuel with
  | zero => intro t h1 h2 h3; omega
  | succ f ih =>
    intro t h1 h2 h3
    rw [dispatchFrom, hscript t]
    by_cases htM : t = M
    · have hbeq : (t == M) = true := by simp [htM]
      have h0 : M - t = 0 := by omega
      have hone : M + 1 - t = 1 := by omega
      rw [hbeq]
      simp [h0, hone]
    · have hbeq : (t == M) = false := by simp [htM]
      have hlt : t < M := by omega
      have hf : f = M + 1 - (t + 1) := by omega
      rw [hbeq]
      simp only [Bool.false_eq_true, if_false]
      rw [ih (t + 1) (by omega) (by omega) hf]
      have hMt : M - t = (M - t - 1) + 1 := by omega
      rw [hMt, range_map_mul_shift cfg.minSleepInterval t (M - t - 1) h1]
      have hx : M - (t + 1) = M - t - 1 := by omega
      have hsucc : t + 1 - 1 = t := by omega
      simp only [hx, hsucc, getSleepIntervalForRetries]
      congr 1
      omega

theorem dispatchFrom_single_try {α : Type} (cfg : DispatchConfig)
    (script : Nat → RpcAttempt α) (sup ro : Bool) (f : Nat) :
    (dispatchFrom cfg script sup ro 1 1 (f + 1)).attempts = 1 := by
  cases h : script 1 with
  | success v => rw [dispatchFrom_step_success cfg script sup ro 1 1 f v h]
  | transportExc w => rw [dispatchFrom_step_transport_raise cfg script sup ro 1 f w h]
  | applicationExc u => rw [dispatchFrom_step_application cfg script sup ro 1 1 f u h]
  | httpError hdr => rw [dispatchFrom_step_http_raise cfg script sup ro 1 f hdr h]
  | otherExc => rw [dispatchFrom_step_other_raise cfg script sup ro 1 f h]

theorem dispatchFrom_sleeps_shape {α : Type} (cfg : DispatchConfig)
    (script : Nat → RpcAttempt α) (sup ro : Bool) (M : Nat)
    (hscript : ∀ n, noRetryAfter (script n) = true) :
    ∀ fuel t, 1 ≤ t →
      ∃ k, (dispatchFrom cfg script sup ro M t fuel).sleeps
        = (List.range k).map fun i => cfg.minSleepInterval * (t - 1 + i) := by
  intro fuel
  induction fuel with
  | zero => intro t _; exact ⟨0, by simp [dispatchFrom]⟩
  | succ f ih =>
    intro t h1
    cases h : script t with
    | success v =>
      exact ⟨0, by rw [dispatchFrom_step_success cfg script sup ro M t f v h]; rfl⟩
    | transportExc w =>
      by_cases htM : t = M
      · refine ⟨0, ?_⟩
        rw [htM] at h ⊢
        rw [dispatchFrom_step_transport_raise cfg script sup ro M f w h]
        rfl
      · obtain ⟨k, hk⟩ := ih (t + 1) (by omega)
        refine ⟨k + 1, ?_⟩
        rw [dispatchFrom_step_transport_retry cfg script sup ro M t f w h htM,
          range_map_mul_shift cfg.minSleepInterval t k h1]
        have hsucc : t + 1 - 1 = t := by omega
        simp only [retryStepResult, hk, hsucc, getSleepIntervalForRetries]
    | applicationExc u =>
      exact ⟨0, by rw [dispatchFrom_step_application cfg script sup ro M t f u h]; rfl⟩
    | httpError hdr =>
      have hhdr : hdr = none := by
        have hn := hscript t
        rw [h] at hn
        cases hdr with
        | none => rfl
        | some s => simp [noRetryAfter] at hn
      subst hhdr
      by_cases htM : t = M
      · refine ⟨0, ?_⟩
        rw [htM] at h ⊢
        rw [dispatchFrom_step_http_raise cfg script sup ro M f none h]
        rfl
      · obtain ⟨k, hk⟩ := ih (t + 1) (by omega)
        refine ⟨k + 1, ?_⟩
        rw [dispatchFrom_step_http_retry_none cfg script sup ro M t f h htM,
          range_map_mul_shift cfg.minSleepInterval t k h1]
        have hsucc : t + 1 - 1 = t := by omega
        simp only [retryStepResult, hk, hsucc, getSleepIntervalForRetries]
    | otherExc =>
      by_cases htM : t = M
      · refine ⟨0, ?_⟩
        rw [htM] at h ⊢
        rw [dispatchFrom_step_other_raise cfg script sup ro M f h]
        rfl
      · obtain ⟨k, hk⟩ := ih (t + 1) (by omega)
        refine ⟨k + 1, ?_⟩
        rw [dispatchFrom_step_other_retry cfg script sup ro M t f h htM,
          range_map_mul_shift cfg.minSleepInterval t k h1]
        have hsucc : t + 1 - 1 = t := by omega
        simp only [retryStepResult, hk, hsucc, getSleepIntervalForRetries]

theorem dispatchFrom_outcome_skip_retriable {α : Type} (cfg : DispatchConfig)
    (script : Nat → RpcAttempt α) (sup ro : Bool) (M : Nat) :
    ∀ fuel t s, 1 ≤ t → t ≤ s → s ≤ M → fuel = M + 1 - t →
      (∀ k, t ≤ k → k < s → retriableFailure (script k) = true) →
      (dispatchFrom cfg script sup ro M t fuel).outcome
        = (dispatchFrom cfg script sup ro M s (M + 1 - s)).outcome := by
  intro fuel
  induction fuel with
  | zero => intro t s h1 h2 h3 h4 h5; omega
  | succ f ih =>
    intro t s h1 h2 h3 h4 h5
    by_cases hts : t = s
    · subst hts
      rw [h4]
    · have hlt : t < s := by omega
      have htM : t ≠ M := by omega
      have hret := h5 t (le_refl t) hlt
      have hf : f = M + 1 - (t + 1) := by omega
      have hih := ih (t + 1) s (by omega) (by omega) h3 hf
        (fun k hk1 hk2 => h5 k (by omega) hk2)
      cases h : script t with
      | success v => rw [h] at hret; simp [retriableFailure] at hret
      | applicationExc u => rw [h] at hret; simp [retriableFailure] at hret
      | transportExc w =>
        rw [dispatchFrom_step_transport_retry cfg script sup ro M t f w h htM]
        exact hih
      | httpError hdr =>
        obtain ⟨sleep, hstep⟩ :=
          dispatchFrom_step_http_retry cfg script sup ro M t f hdr h htM
        rw [hstep]
        exact hih
      | otherExc =>
        rw [dispatchFrom_step_other_retry cfg script sup ro M t f h htM]
        exact hih

theorem doHs2Rpc_retry_eq {α : Type} (cfg : DispatchConfig)
    (script : Nat → RpcAttempt α) (sup : Bool) :
    doHs2Rpc cfg script sup true
      = dispatchFrom cfg script sup true cfg.maxTries 1 cfg.maxTries := rfl

theorem doHs2Rpc_noretry_eq {α : Type} (cfg : DispatchConfig)
    (script : Nat → RpcAttempt α) (sup : Bool) :
    doHs2Rpc cfg script sup false = dispatchFrom cfg script sup false 1 1 1 := rfl

/-! ## Claim theorems -/

/-- C1, counterexample. The claim states that for an idempotent rpc over an
HTTP transport with `maxTries = 4` and `minSleep = 1`, with no retry-after
header in play, the sleep before attempt `n` (`n > 1`) is `minSleep * (n - 1)`
seconds, i.e. the inter-attempt sleeps are `[1, 2, 3]`. Under a persistent
transport failure the dispatcher actually sleeps `[0, 1, 2]` between its four
attempts, refuting the claimed schedule. -/
theorem c1_counterexample :
    (doHs2Rpc (α := Unit) (hs2ClientConfig true 4 false)
        (fun _ => .transportExc false) true true).sleeps = [0, 1, 2]
      ∧ [0, 1, 2] ≠ [1 * (2 - 1), 1 * (3 - 1), 1 * (4 - 1)] := by
  constructor
  · decide
  · decide

/-- C1, amended. For every idempotent rpc dispatched over an HTTP transport
with `maxTries = 4` and `minSleep = 1`, when no failure carries a
server-provided retry-after duration, the sleep performed before attempt `n`
(`n > 1`, 1-indexed) equals `minSleep * (n - 2)` seconds: the `i`-th recorded
sleep (0-indexed, separating attempt `i + 1` from attempt `i + 2`) is
`minSleep * i`, so the pre-attempt sleeps for attempts 1..4 are
`[0, 0, 1, 2]` seconds. -/
theorem c1_amended_sleep_schedule {α : Type} (script : Nat → RpcAttempt α)
    (sup cancelled : Bool)
    (hscript : ∀ n, noRetryAfter (script n) = true) :
    ∀ i, i < (doHs2Rpc (hs2ClientConfig true 4 cancelled) script sup true).sleeps.length →
      (doHs2Rpc (hs2ClientConfig true 4 cancelled) script sup true).sleeps.getD i 0
        = (hs2ClientConfig true 4 cancelled).minSleepInterval * i := by
  intro i hi
  rw [doHs2Rpc_retry_eq] at hi ⊢
  obtain ⟨k, hk⟩ := dispatchFrom_sleeps_shape (hs2ClientConfig true 4 cancelled)
    script sup true (hs2ClientConfig true 4 cancelled).maxTries hscript
    (hs2ClientConfig true 4 cancelled).maxTries 1 (le_refl 1)
  rw [hk] at hi ⊢
  rw [List.getD_eq_getElem _ _ hi]
  simp

/-- C1, witness for the amended theorem: under a persistent transport failure
the third recorded sleep (the one before attempt 4) is `minSleep * 2 = 2`. -/
theorem c1_amended_witness :
    2 < (doHs2Rpc (α := Unit) (hs2ClientConfig true 4 false)
        (fun _ => .transportExc false) true true).sleeps.length
      ∧ (doHs2Rpc (α := Unit) (hs2ClientConfig true 4 false)
          (fun _ => .transportExc false) true true).sleeps.getD 2 0
        = (hs2ClientConfig true 4 false).minSleepInterval * 2 :=
  ⟨by decide, c1_amended_sleep_schedule (fun _ => .transportExc false) true false
      (fun _ => rfl) 2 (by decide)⟩

/-- C2, counterexample. The claim states that with cancellation suppression
enabled, a failure while the cancel flag is set always raises
`QueryCancelledByShellException`, for every kind of failure. Here suppression
is enabled (`suppress_error_on_cancel = true`) and `is_query_cancelled = true`,
the call fails persistently with a transport error, and the dispatcher raises
`DisconnectedException` instead of the suppressed-Cancelled signal. -/
theorem c2_counterexample :
    (doHs2Rpc (α := Unit) (hs2ClientConfig true 4 true)
        (fun _ => .transportExc false) true true).outcome
      = .err .disconnected
    ∧ (DispatchOutcome.err RpcError.disconnected : DispatchOutcome Unit)
      ≠ .err .queryCancelledByShell := by
  constructor
  · decide
  · decide

/-- C2, amended. With cancellation suppression enabled and the cancel flag
set, the dispatcher raises the suppressed-Cancelled signal instead of the
underlying error exactly for `TApplicationException` failures (the only
failure kind whose handler consults the cancel flag), and it does so
regardless of retry state: whatever the attempt index `t` at which the
application failure occurs and whether or not retries remain. Transport,
http and generic failures are not converted (see the counterexample). -/
theorem c2_amended_cancel_suppression {α : Type} (cfg : DispatchConfig)
    (script : Nat → RpcAttempt α) (ro : Bool) (t : Nat) (u : Bool)
    (hcancel : cfg.isQueryCancelled = true)
    (ht1 : 1 ≤ t) (htM : t ≤ (if ro then cfg.maxTries else 1))
    (happ : script t = .applicationExc u)
    (hpre : ∀ k, 1 ≤ k → k < t → retriableFailure (script k) = true) :
    (doHs2Rpc cfg script true ro).outcome = .err .queryCancelledByShell := by
  have hunfold : doHs2Rpc cfg script true ro
      = dispatchFrom cfg script true ro (if ro then cfg.maxTries else 1) 1
          (if ro then cfg.maxTries else 1) := rfl
  rw [hunfold]
  have hreach := dispatchFrom_outcome_skip_retriable cfg script true ro
    (if ro then cfg.maxTries else 1) (if ro then cfg.maxTries else 1) 1 t
    (le_refl 1) ht1 htM (by omega) hpre
  rw [hreach]
  obtain ⟨f, hf⟩ : ∃ f, (if ro then cfg.maxTries else 1) + 1 - t = f + 1 :=
    ⟨(if ro then cfg.maxTries else 1) - t, by omega⟩
  rw [hf, dispatchFrom_step_application cfg script true ro _ t f u happ]
  simp [hcancel]

/-- C2, witness for the amended theorem: a first-attempt application failure
with the cancel flag set yields the suppressed-Cancelled signal even though
three retries remain. -/
theorem c2_amended_witness :
    ((hs2ClientConfig true 4 true).isQueryCancelled = true
      ∧ (1 : Nat) ≤ 1 ∧ 1 ≤ (if true then (hs2ClientConfig true 4 true).maxTries else 1))
    ∧ (doHs2Rpc (α := Unit) (hs2ClientConfig true 4 true)
        (fun _ => .applicationExc false) true true).outcome
      = .err .queryCancelledByShell :=
  ⟨⟨rfl, by decide, by decide⟩,
    c2_amended_cancel_suppression (hs2ClientConfig true 4 true)
      (fun _ => .applicationExc false) true 1 false rfl (by decide) (by decide)
      rfl (fun k hk1 hk2 => absurd (Nat.lt_of_le_of_lt hk1 hk2) (by omega))⟩

/-- C3. Under a persistent transport failure: an idempotent call over an HTTP
transport (`max_tries = connect_max_tries = c`) makes exactly `c` attempts and
raises `DisconnectedException`; a non-idempotent call under the identical
failure makes exactly one attempt and raises immediately; and on a non-HTTP
transport (`max_tries = 1`) every call makes exactly one attempt regardless of
the idempotent (`retry_on_error`) flag. -/
theorem c3_attempt_counts {α : Type} (c : Nat) (hc : 1 ≤ c)
    (script : Nat → RpcAttempt α) (sup cancelled : Bool)
    (hscript : ∀ n, script n = .transportExc false) :
    ((doHs2Rpc (hs2ClientConfig true c cancelled) script sup true).attempts = c
      ∧ (doHs2Rpc (hs2ClientConfig true c cancelled) script sup true).outcome
          = .err .disconnected)
    ∧ ((doHs2Rpc (hs2ClientConfig true c cancelled) script sup false).attempts = 1
      ∧ (doHs2Rpc (hs2ClientConfig true c cancelled) script sup false).outcome
          = .err .disconnected)
    ∧ (∀ (otherScript : Nat → RpcAttempt α) (ro : Bool),
        (doHs2Rpc (hs2ClientConfig false c cancelled) otherScript sup ro).attempts = 1) := by
  have hmax : (hs2ClientConfig true c cancelled).maxTries = c := rfl
  refine ⟨?_, ?_, ?_⟩
  · rw [doHs2Rpc_retry_eq, hmax]
    rw [dispatchFrom_persistent_transport (hs2ClientConfig true c cancelled)
      script sup true c hscript c 1 (le_refl 1) hc (by omega)]
    constructor
    · show c + 1 - 1 = c
      omega
    · rfl
  · rw [doHs2Rpc_noretry_eq]
    rw [dispatchFrom_persistent_transport (hs2ClientConfig true c cancelled)
      script sup false 1 hscript 1 1 (le_refl 1) (le_refl 1) (by omega)]
    exact ⟨rfl, rfl⟩
  · intro otherScript ro
    cases ro with
    | false => exact dispatchFrom_single_try _ otherScript sup false 0
    | true => exact dispatchFrom_single_try _ otherScript sup true 0

/-- C3, witness: with the default `connect_max_tries = 4`, the idempotent
HTTP-transport call under persistent transport failure makes 4 attempts, and
a call on a non-HTTP transport makes exactly one attempt even when marked
idempotent. -/
theorem c3_witness :
    (1 ≤ 4
      ∧ (doHs2Rpc (α := Unit) (hs2ClientConfig true 4 false)
          (fun _ => .transportExc false) true true).attempts = 4)
    ∧ (doHs2Rpc (α := Unit) (hs2ClientConfig false 4 false)
        (fun _ => .success ()) true true).attempts = 1 :=
  ⟨⟨by decide,
      (c3_attempt_counts 4 (by decide) (fun _ => .transportExc false) true false
        (fun _ => rfl)).1.1⟩,
    (c3_attempt_counts (α := Unit) 4 (by decide) (fun _ => .transportExc false) true false
        (fun _ => rfl)).2.2 (fun _ => .success ()) true⟩

/-- C4, counterexample. The claim states that `close()` called twice returns
true both times. When the remote close responds with an error status, the
first call returns `_is_hs2_nonerror_status(ERROR_STATUS) = false`, so the
first of the two calls does not return true. -/
theorem c4_counterexample :
    (closeQuery ⟨false⟩ (.ok .errorStatus)).result = .ok false
    ∧ (Except.ok false : Except RpcError Bool) ≠ .ok true := by
  constructor
  · decide
  · decide

/-- C4, amended. `close_query` on an already-closed handle returns true with
no remote call and no other side effect; on an open handle it issues exactly
one remote close rpc; when that rpc obtains a response the closed flag is set
to true whether or not the response status is an error, the call returns true
iff the status is non-error, and a second `close_query` is then a remote-free
true (so at most one remote close rpc across both calls); when the rpc raises,
the exception propagates and the closed flag stays false. -/
theorem c4_amended_close_idempotence (h : QueryHandle)
    (r1 r2 : Except RpcError TStatusCode) :
    (h.isClosed = true → closeQuery h r1 = ⟨h, .ok true, 0⟩)
    ∧ (h.isClosed = false →
        (closeQuery h r1).rpcCalls = 1
        ∧ (∀ st, r1 = .ok st →
            (closeQuery h r1).handle.isClosed = true
            ∧ (closeQuery h r1).result = .ok (isHs2NonerrorStatus st)
            ∧ closeQuery (closeQuery h r1).handle r2
                = ⟨(closeQuery h r1).handle, .ok true, 0⟩
            ∧ (closeQuery h r1).rpcCalls
                + (closeQuery (closeQuery h r1).handle r2).rpcCalls = 1)
        ∧ (∀ e, r1 = .error e →
            (closeQuery h r1).result = .error e
            ∧ (closeQuery h r1).handle = h)) := by
  obtain ⟨b⟩ := h
  cases b with
  | true =>
    refine ⟨fun _ => by simp [closeQuery], fun hc => by simp at hc⟩
  | false =>
    refine ⟨fun hc => by simp at hc, fun _ => ⟨?_, ?_, ?_⟩⟩
    · cases r1 <;> simp [closeQuery]
    · intro st hst
      subst hst
      refine ⟨by simp [closeQuery], by simp [closeQuery], ?_, ?_⟩
      · simp [closeQuery]
      · simp [closeQuery]
    · intro e he
      subst he
      exact ⟨by simp [closeQuery], by simp [closeQuery]⟩

/-- C4, witness for the amended theorem: a successful first close on an open
handle makes one rpc and the second close is a remote-free true. -/
theorem c4_amended_witness :
    ((⟨false⟩ : QueryHandle).isClosed = false)
    ∧ (closeQuery ⟨false⟩ (.ok .successStatus)).rpcCalls = 1
    ∧ closeQuery (closeQuery ⟨false⟩ (.ok .successStatus)).handle (.ok .successStatus)
        = ⟨(closeQuery ⟨false⟩ (.ok .successStatus)).handle, .ok true, 0⟩ :=
  ⟨rfl,
    ((c4_amended_close_idempotence ⟨false⟩ (.ok .successStatus)
        (.ok .successStatus)).2 rfl).1,
    (((c4_amended_close_idempotence ⟨false⟩ (.ok .successStatus)
        (.ok .successStatus)).2 rfl).2.1 .successStatus rfl).2.2.1⟩

/-- C5, counterexample. The claim states that in each protocol variant the
fetch sequence issues another fetch-next rpc iff the previous response's
"more rows" indicator was true. In the strict HS2 variant the first response
carries `hasMoreRows = false` yet, because its batch is non-empty, the client
issues a second fetch rpc (2 rpcs, not 1): `_hasMoreRows` there ignores the
wire flag and tests the batch's value count. -/
theorem c5_counterexample :
    strictFetch [FetchStep.resp [1] false, FetchStep.resp ([] : List Nat) true]
      = ([[1], []], 2, none)
    ∧ (2 : Nat) ≠ 1 := by
  constructor
  · decide
  · decide

/-- C5, amended. In every variant the concatenation of yielded batches is the
server's batches in order and no rpc beyond the terminating response is
issued; the rich HS2 and Beeswax variants terminate exactly when the
response's more-rows indicator is false (issuing `pre.length + 1` rpcs when
`pre` responses say "more" and the next says "no more"), while the strict HS2
variant continues iff the batch just yielded is non-empty, terminating at the
first empty batch regardless of the wire flag. -/
theorem c5_amended_fetch_behaviour {ρ : Type} :
    (∀ (pre : List (List ρ)) (last : List ρ) (rest : List (FetchStep ρ)),
      hs2Fetch ((pre.map fun rs => FetchStep.resp rs true)
          ++ FetchStep.resp last false :: rest)
        = (pre ++ [last], pre.length + 1, none))
    ∧ (∀ (pre : List (List ρ)) (last : List ρ) (rest : List (FetchStep ρ)),
      beeswaxFetch ((pre.map fun rs => FetchStep.resp rs true)
          ++ FetchStep.resp last false :: rest)
        = (pre ++ [last], pre.length + 1, none))
    ∧ (∀ (pre : List (List ρ × Bool)) (b : Bool) (rest : List (FetchStep ρ)),
      (∀ p ∈ pre, p.1 ≠ ([] : List ρ)) →
      strictFetch ((pre.map fun p => FetchStep.resp p.1 p.2)
          ++ FetchStep.resp [] b :: rest)
        = (pre.map Prod.fst ++ [[]], pre.length + 1, none)) := by
  refine ⟨?_, ?_, ?_⟩
  · intro pre last rest
    induction pre with
    | nil => simp [hs2Fetch]
    | cons hd tl ih => simp [hs2Fetch, ih]
  · intro pre last rest
    induction pre with
    | nil => simp [beeswaxFetch]
    | cons hd tl ih => simp [beeswaxFetch, ih]
  · intro pre b rest hne
    induction pre with
    | nil => simp [strictFetch]
    | cons hd tl ih =>
      have hhd : hd.1 ≠ ([] : List ρ) := hne hd (by simp)
      have hlen : (hd.1.length != 0) = true := by
        simp only [bne_iff_ne, ne_eq]
        intro h0
        exact hhd (List.eq_nil_of_length_eq_zero h0)
      simp [strictFetch, hlen, ih (fun p hp => hne p (by simp [hp]))]

/-- C5, witness for the amended theorem: a two-batch rich-HS2 fetch stops at
the first `hasMoreRows = false` response without touching the rest of the
stream, and a strict fetch stops at the first empty batch. -/
theorem c5_amended_witness :
    hs2Fetch ([FetchStep.resp [1] true, FetchStep.resp [2] false,
        FetchStep.resp [3] true] : List (FetchStep Nat))
      = ([[1], [2]], 2, none)
    ∧ strictFetch ([FetchStep.resp [1] true, FetchStep.resp [] false]
        : List (FetchStep Nat))
      = ([[1], []], 2, none) := by
  constructor
  · have hx := (c5_amended_fetch_behaviour (ρ := Nat)).1 [[1]] [2]
      [FetchStep.resp [3] true]
    simpa using hx
  · have hx := (c5_amended_fetch_behaviour (ρ := Nat)).2.2 [([1], true)] false []
      (by simp)
    simpa using hx

/-- C6. For every column batch transposed by `_transpose`: for each row index
`i < numRows`, the cell is the literal `'NULL'` when `i` lies within the null
bitmap (`i < 8 * len(nulls)`) and bit `i` (least-significant-first within each
byte) is set, and otherwise the row's value — stringified when a converter is
configured, raw when the converter is `None`; in particular every row at or
beyond the bitmap's length gets the (converted) value unconditionally. The
second conjunct checks the worked example: bitmap bits `[1,0,1]` (byte `5`)
with raw values `[A,B,C]` decode to `[NULL, B, NULL]`. -/
theorem c6_transpose_cells {α : Type} [Inhabited α] :
    (∀ (s : Option (α → String)) (values : List α) (nulls : List Nat)
        (numRows i : Nat), i < numRows →
      (transposeColumn s values nulls numRows).getD i Cell.nullLit
        = if i < 8 * nulls.length ∧ isNullBit nulls i = true then Cell.nullLit
          else cellOf s (values.getD i default))
    ∧ transpose (α := String) [none] [⟨["A", "B", "C"], [5]⟩]
        = [[Cell.nullLit], [Cell.raw "B"], [Cell.nullLit]] := by
  constructor
  · intro s values nulls numRows i hi
    unfold transposeColumn
    by_cases hcase : i < min (8 * nulls.length) numRows
    · have hlen : i < ((List.range (min (8 * nulls.length) numRows)).map fun currentRow =>
          if isNullBit nulls currentRow then Cell.nullLit
          else cellOf s (values.getD currentRow default)).length := by
        simpa using hcase
      rw [List.getD_append _ _ _ _ hlen, List.getD_eq_getElem _ _ hlen]
      have h8 : i < 8 * nulls.length := by omega
      simp only [List.getElem_map, List.getElem_range]
      by_cases hbit : isNullBit nulls i = true
      · rw [if_pos hbit, if_pos ⟨h8, hbit⟩]
      · rw [if_neg hbit, if_neg (fun hc => hbit hc.2)]
    · have h8 : ¬(i < 8 * nulls.length) := by omega
      have hlenA : ((List.range (min (8 * nulls.length) numRows)).map fun currentRow =>
          if isNullBit nulls currentRow then Cell.nullLit
          else cellOf s (values.getD currentRow default)).length
            = min (8 * nulls.length) numRows := by simp
      have hge : ((List.range (min (8 * nulls.length) numRows)).map fun currentRow =>
          if isNullBit nulls currentRow then Cell.nullLit
          else cellOf s (values.getD currentRow default)).length ≤ i := by omega
      rw [List.getD_append_right _ _ _ _ hge, hlenA]
      have hlt : i - min (8 * nulls.length) numRows
          < ((List.range' (min (8 * nulls.length) numRows)
              (numRows - min (8 * nulls.length) numRows)).map fun currentRow =>
            cellOf s (values.getD currentRow default)).length := by
        simp only [List.length_map, List.length_range']
        omega
      rw [List.getD_eq_getElem _ _ hlt]
      simp only [List.getElem_map, List.getElem_range'_1]
      rw [if_neg (fun hc => h8 hc.1)]
      have hidx : min (8 * nulls.length) numRows
          + (i - min (8 * nulls.length) numRows) = i := by omega
      rw [hidx]
  · decide

/-- C6, witness: on the `[1,0,1]`/`[A,B,C]` column (bitmap byte `5`, no
converter), row 1 decodes to the raw value `B` and row 0 to `'NULL'`. -/
theorem c6_witness :
    ((1 : Nat) < 3
      ∧ (transposeColumn (α := String) none ["A", "B", "C"] [5] 3).getD 1 Cell.nullLit
          = Cell.raw "B")
    ∧ (transposeColumn (α := String) none ["A", "B", "C"] [5] 3).getD 0 Cell.nullLit
        = Cell.nullLit :=
  ⟨⟨by decide, by
      have hx := (c6_transpose_cells (α := String)).1 none ["A", "B", "C"] [5] 3 1
        (by decide)
      simpa using hx⟩,
    by
      have hx := (c6_transpose_cells (α := String)).1 none ["A", "B", "C"] [5] 3 0
        (by decide)
      simpa using hx⟩

/-- C7. For every 16-byte identifier, `_convert_id_to_str` renders exactly
what the specification describes: reverse the low 8 bytes, reverse the high
8 bytes, hex-encode each half and join with a colon; and on the bytes
`00 01 ... 0f` it produces `"0706050403020100:0f0e0d0c0b0a0908"`. -/
theorem c7_convert_id (idBytes : List Nat) (hlen : idBytes.length = 16) :
    convertIdToStr idBytes = specRenderId idBytes
    ∧ convertIdToStr (List.range 16) = "0706050403020100:0f0e0d0c0b0a0908" := by
  constructor
  · unfold convertIdToStr specRenderId
    have h16 : idBytes.take 16 = idBytes := List.take_of_length_le (by omega)
    rw [h16]
  · decide

/-- C7, witness: the 16-byte identifier `00 01 ... 0f` satisfies the length
hypothesis and renders per the specification's split/reverse/hex recipe. -/
theorem c7_witness :
    (List.range 16).length = 16
    ∧ convertIdToStr (List.range 16) = specRenderId (List.range 16) :=
  ⟨by decide, (c7_convert_id (List.range 16) (by decide)).1⟩

/-- C8. The `wait_to_finish` sleep target is a step function of elapsed time
since the loop started (`< 10s → 0.1s`, `10s ≤ elapsed < 60s → 0.5s`,
`≥ 60s → 1.0s`), and the sleep actually performed is the target reduced by
the status rpc's duration with a floor of zero: it equals
`max (target - rpcTime) 0`, and no sleep is performed when the rpc time
meets or exceeds the target. -/
theorem c8_wait_sleep (loopStart now rpcTime : ℚ) :
    ((now - loopStart < 10 → getSleepInterval loopStart now = 1/10)
      ∧ (10 ≤ now - loopStart → now - loopStart < 60 →
          getSleepInterval loopStart now = 1/2)
      ∧ (60 ≤ now - loopStart → getSleepInterval loopStart now = 1))
    ∧ waitPollSleep loopStart now rpcTime
        = max (getSleepInterval loopStart now - rpcTime) 0
    ∧ (getSleepInterval loopStart now ≤ rpcTime →
        waitPollSleep loopStart now rpcTime = 0) := by
  refine ⟨⟨?_, ?_, ?_⟩, ?_, ?_⟩
  · intro h1
    simp [getSleepInterval, h1]
  · intro h1 h2
    rw [getSleepInterval]
    rw [if_neg (by simpa using not_lt.mpr h1), if_pos (by simpa using h2)]
  · intro h1
    rw [getSleepInterval]
    rw [if_neg (by simp; linarith), if_neg (by simp; linarith)]
  · rw [waitPollSleep]
    by_cases hlt : rpcTime < getSleepInterval loopStart now
    · rw [if_pos (by simpa using hlt)]
      rw [max_eq_left (by linarith)]
    · rw [if_neg (by simpa using hlt)]
      rw [max_eq_right (by linarith)]
  · intro h1
    rw [waitPollSleep]
    rw [if_neg (by simpa using not_lt.mpr h1)]

/-- C8, witness: at 15 seconds of elapsed time the target is 0.5s, and with
a 0.2s status rpc the performed sleep is `max (0.5 - 0.2) 0`. -/
theorem c8_witness :
    ((10 : ℚ) ≤ 15 - 0 ∧ (15 : ℚ) - 0 < 60
      ∧ getSleepInterval 0 15 = 1/2)
    ∧ waitPollSleep 0 15 (1/5) = max (getSleepInterval 0 15 - 1/5) 0 :=
  ⟨⟨by norm_num, by norm_num,
      (c8_wait_sleep 0 15 (1/5)).1.2.1 (by norm_num) (by norm_num)⟩,
    (c8_wait_sleep 0 15 (1/5)).2.1⟩

/-- C9, counterexample. The claim states that in the legacy protocol variant,
close-DML degenerates to a plain close returning null for every DML
statistic. The legacy (Beeswax) client's `close_dml` actually issues a
`CloseInsert` rpc and returns the server-reported statistics: with
`rows_modified = {p: 3}`, no deleted rows and `num_row_errors = 0` it returns
`(3, None, 0)`, not `(None, None, None)`. -/
theorem c9_counterexample :
    (closeDmlBeeswax ⟨false⟩ (.ok (⟨[3], [], some 0⟩, .ok))).result
      = .ok (some 3, none, some 0)
    ∧ (Except.ok ((some 3, none, some 0) : DmlStats) : Except RpcError DmlStats)
      ≠ .ok (none, none, none) := by
  constructor
  · decide
  · decide

/-- C9, amended. The degenerate close-DML belongs to the strict HS2 variant,
not the Beeswax legacy variant: `StrictHS2Client.close_dml` performs exactly
the close operation (same handle update and same single remote rpc) and maps
every successful close to the all-null statistics `(None, None, None)`,
propagating a raised exception; the Beeswax `close_dml` on a successful OK
response sets the closed flag and returns the processed server statistics. -/
theorem c9_amended_close_dml (h : QueryHandle)
    (r : Except RpcError TStatusCode) (d : DmlResult) :
    closeDmlStrict h r
      = ⟨(closeQueryStrict h r).handle,
         (closeQueryStrict h r).result.map (fun _ => ((none, none, none) : DmlStats)),
         (closeQueryStrict h r).rpcCalls⟩
    ∧ closeDmlBeeswax h (.ok (d, RpcStatus.ok))
        = ⟨{ h with isClosed := true }, .ok (processDmlResult d), 1⟩ := by
  constructor
  · obtain ⟨b⟩ := h
    cases b <;> cases r <;> simp [closeDmlStrict, closeQueryStrict, Except.map]
  · simp [closeDmlBeeswax]
    decide

/-- C10. `cancel_query` never changes the handle's closed flag, in both
protocol variants: on an open handle it issues exactly one remote cancel rpc,
returns the status-derived boolean when a response arrives, and leaves the
handle open — so a subsequent `close_query` still issues the remote close
rpc; and it short-circuits to true with no remote call only when the handle
was already closed. -/
theorem c10_cancel_preserves_closed (h : QueryHandle)
    (r rc : Except RpcError TStatusCode) (rb : Except RpcError RpcStatus)
    (rcb : Except RpcError RpcStatus) :
    (h.isClosed = false →
        (cancelQuery h r).handle = h
        ∧ (cancelQuery h r).rpcCalls = 1
        ∧ (∀ st, r = .ok st → (cancelQuery h r).result = .ok (isHs2NonerrorStatus st))
        ∧ (closeQuery (cancelQuery h r).handle rc).rpcCalls = 1
        ∧ (cancelQueryBeeswax h rb).handle = h
        ∧ (cancelQueryBeeswax h rb).rpcCalls = 1
        ∧ (∀ st, rb = .ok st →
            (cancelQueryBeeswax h rb).result = .ok (st == RpcStatus.ok))
        ∧ (closeQueryBeeswax (cancelQueryBeeswax h rb).handle rcb).rpcCalls = 1)
    ∧ (h.isClosed = true →
        cancelQuery h r = ⟨h, .ok true, 0⟩
        ∧ cancelQueryBeeswax h rb = ⟨h, .ok true, 0⟩) := by
  obtain ⟨b⟩ := h
  cases b with
  | true =>
    exact ⟨fun hc => by simp at hc,
      fun _ => ⟨by simp [cancelQuery], by simp [cancelQueryBeeswax]⟩⟩
  | false =>
    refine ⟨fun _ => ?_, fun hc => by simp at hc⟩
    refine ⟨?_, ?_, ?_, ?_, ?_, ?_, ?_, ?_⟩
    · cases r <;> simp [cancelQuery]
    · cases r <;> simp [cancelQuery]
    · intro st hst
      subst hst
      simp [cancelQuery]
    · have hh : (cancelQuery ⟨false⟩ r).handle = ⟨false⟩ := by
        cases r <;> simp [cancelQuery]
      rw [hh]
      cases rc <;> simp [closeQuery]
    · cases rb <;> simp [cancelQueryBeeswax]
    · cases rb <;> simp [cancelQueryBeeswax]
    · intro st hst
      subst hst
      simp [cancelQueryBeeswax]
    · have hh : (cancelQueryBeeswax ⟨false⟩ rb).handle = ⟨false⟩ := by
        cases rb <;> simp [cancelQueryBeeswax]
      rw [hh]
      cases rcb <;> simp [closeQueryBeeswax]

/-- C10, witness: cancelling an open handle leaves it open and a subsequent
close still issues the remote close rpc. -/
theorem c10_witness :
    ((⟨false⟩ : QueryHandle).isClosed = false)
    ∧ (cancelQuery ⟨false⟩ (.ok .successStatus)).handle = ⟨false⟩
    ∧ (closeQuery (cancelQuery ⟨false⟩ (.ok .successStatus)).handle
        (.ok .successStatus)).rpcCalls = 1 :=
  ⟨rfl,
    ((c10_cancel_preserves_closed ⟨false⟩ (.ok .successStatus) (.ok .successStatus)
        (.ok .ok) (.ok .ok)).1 rfl).1,
    ((c10_cancel_preserves_closed ⟨false⟩ (.ok .successStatus) (.ok .successStatus)
        (.ok .ok) (.ok .ok)).1 rfl).2.2.2.1⟩

end Impala
